import Mathlib

/-!
Verification of the chainstream-raydium-swaps repository.

The repository has two parts:
* the transport / request-building layer (`src/chainstream/methods.rs`,
  `src/chainstream/client.rs`) and the two CLI drivers
  (`src/bin/swap_stream.rs`, `src/bin/swap_stream_count.rs`), which are
  present in the source tree and embedded here directly from the code; and
* the core event decoder (the `raydium` module: `raydium::parse` with
  `parse_raydium_anchor_events`, and `raydium::anchor_events` with
  `RaydiumCLMMEvent`), which is referenced by both drivers but whose source
  file is not part of the source tree.  Definitions for the core are
  modelled from the specification and are marked as such in their doc
  comments.

All machine integers are modelled as `Nat` (the decoders read a fixed
number of bytes, so every value is bounded by construction); byte
sequences are `List Nat`; fallible code returns `Except`.
-/

set_option autoImplicit false

namespace ChainstreamRaydium

/-- Modelled from the spec: structural metadata errors of the core decoder
(`raydium` module, absent from the source tree).  The spec names a single
variant: an index in the metadata pointing outside `accountKeys`. -/
inductive MetadataError where
  | indexOutOfRange
deriving DecidableEq, Repr

/-- Modelled from the spec: per-candidate decode failures of the core
decoder.  Recoverable, scoped to one candidate payload. -/
inductive DecodeError where
  | truncated
  | invalidField
deriving DecidableEq, Repr

/-- Modelled from the spec: one nested call record of a transaction:
`programIndex` an index into `accountKeys`, `data` the raw byte payload,
`accountIndices` a sequence of indices into `accountKeys`. -/
structure CallRecord where
  programIndex : Nat
  data : List Nat
  accountIndices : List Nat
deriving DecidableEq, Repr

/-- Modelled from the spec: a group of inner call records, tagged with the
index of the outer (top-level) instruction that produced it. -/
structure InnerCallGroup where
  outerIndex : Nat
  calls : List CallRecord
deriving DecidableEq, Repr

/-- Modelled from the spec: one top-level instruction of the transaction;
the scanner only needs its program index into `accountKeys`. -/
structure OuterInstruction where
  programIndex : Nat
deriving DecidableEq, Repr

/-- Modelled from the spec: the transaction execution metadata delivered by
the feed — signature, ordered account-key table, diagnostic log messages
(not used by the decode path), the top-level instruction list, and the
grouped inner call records. -/
structure TransactionMetadata where
  signature : String
  accountKeys : List String
  logMessages : List String
  instructions : List OuterInstruction
  innerCalls : List InnerCallGroup
deriving DecidableEq, Repr

/-- Modelled from the spec: a raw candidate payload produced by the
scanner, with its total order key (outer-instruction index, position
within the inner group). -/
structure RawCandidate where
  sourceOrder : Nat × Nat
  payload : List Nat
deriving DecidableEq, Repr

/-- Swap event of the Raydium CLMM program.  The field names
`token_account_0`, `token_account_1` and `zero_for_one` are fixed by the
drivers in the source tree; the full field list and layout are modelled
from the spec (pool address, initiating account, the two asset accounts,
the transferred amount, the direction flag). -/
structure SwapEvent where
  pool : String
  sender : String
  token_account_0 : String
  token_account_1 : String
  amount : Nat
  zero_for_one : Bool
deriving DecidableEq, Repr

/-- Modelled from the spec: a second known event kind (liquidity change),
following the same pattern as the swap kind — a fixed ordered set of typed
fields. -/
structure IncreaseLiquidityEvent where
  pool : String
  amount_0 : Nat
  amount_1 : Nat
deriving DecidableEq, Repr

/-- Tagged union over the known event kinds of the Raydium CLMM program.
The constructor `swap` and the type name are fixed by the drivers in the
source tree; the set of other kinds is modelled from the spec. -/
inductive RaydiumCLMMEvent where
  | swap (e : SwapEvent)
  | increaseLiquidity (e : IncreaseLiquidityEvent)
deriving DecidableEq, Repr

/-- Modelled from the spec: the result of the discriminator dispatcher —
a known event kind or the forward-compatibility escape hatch `unknown`. -/
inductive EventKind where
  | swap
  | increaseLiquidity
  | unknown
deriving DecidableEq, Repr

/-- Modelled from the spec: the fixed discriminator width, 8 bytes. -/
def DISCRIMINATOR_WIDTH : Nat := 8

/-- Modelled from the spec: the 8-byte discriminator of the swap event.
The exact bytes are pinned by the monitored program's published schema,
which is external to this repository; the value here is the published
Anchor event discriminator of the Raydium CLMM swap event. -/
def SWAP_DISCRIMINATOR : List Nat := [64, 198, 205, 232, 38, 8, 113, 226]

/-- Modelled from the spec: the 8-byte discriminator of the liquidity
event kind, a stand-in pinned by the external schema. -/
def INCREASE_LIQUIDITY_DISCRIMINATOR : List Nat :=
  [73, 110, 99, 76, 105, 113, 69, 118]

/-- Modelled from the spec (Account Key Resolver): pure lookup of an index
in the account-key table; an out-of-range index is a structural error. -/
def resolve (accountKeys : List String) (index : Nat) :
    Except MetadataError String :=
  match accountKeys[index]? with
  | some a => .ok a
  | none => .error .indexOutOfRange

/-- Modelled from the spec: every entry of a call record's
`accountIndices` must be a valid index into `accountKeys`; a violation is
a structural metadata error. -/
def validateIndices (accountKeys : List String) :
    List Nat → Except MetadataError Unit
  | [] => .ok ()
  | i :: rest =>
    match resolve accountKeys i with
    | .error e => .error e
    | .ok _ => validateIndices accountKeys rest

/-- Modelled from the spec (Discriminator Dispatcher): split a candidate
payload into its fixed-width leading tag and the remainder; a payload
shorter than the discriminator width is `truncated`; an unmatched tag is
the non-error kind `unknown`. -/
def classify (payload : List Nat) :
    Except DecodeError (EventKind × List Nat) :=
  if payload.length < DISCRIMINATOR_WIDTH then .error .truncated
  else
    let tag := payload.take DISCRIMINATOR_WIDTH
    let remainder := payload.drop DISCRIMINATOR_WIDTH
    if tag = SWAP_DISCRIMINATOR then .ok (.swap, remainder)
    else if tag = INCREASE_LIQUIDITY_DISCRIMINATOR then
      .ok (.increaseLiquidity, remainder)
    else .ok (.unknown, remainder)

/-- Modelled from the spec: consume a fixed number of bytes from the front
of the remainder; too few bytes is a `truncated` decode failure. -/
def takeBytes (n : Nat) (bs : List Nat) :
    Except DecodeError (List Nat × List Nat) :=
  if bs.length < n then .error .truncated else .ok (bs.take n, bs.drop n)

/-- Modelled from the spec: a little-endian unpadded fixed-width integer
read from a byte block (first byte least significant). -/
def leToNat (bs : List Nat) : Nat :=
  bs.foldr (fun b acc => b + 256 * acc) 0

/-- Modelled from the spec: canonical string rendering of a fixed-size
address byte block.  The exact textual alphabet is defined by the external
schema; it is modelled here as an injective rendering of the bytes. -/
def renderAddress (bs : List Nat) : String := toString bs

/-- Modelled from the spec: a one-byte boolean field; any byte other than
0 or 1 is an invalid field. -/
def readBool (b : Nat) : Except DecodeError Bool :=
  if b = 0 then .ok false
  else if b = 1 then .ok true
  else .error .invalidField

/-- Modelled from the spec (Event Decoders): the swap decoder consumes, in
a fixed order, four 32-byte address blocks (pool, sender, the two asset
accounts), one little-endian u64 amount and one boolean direction flag;
trailing bytes beyond the declared schema width are ignored. -/
def decodeSwap (remainder : List Nat) : Except DecodeError SwapEvent := do
  let (pool, r1) ← takeBytes 32 remainder
  let (sender, r2) ← takeBytes 32 r1
  let (ta0, r3) ← takeBytes 32 r2
  let (ta1, r4) ← takeBytes 32 r3
  let (amountBytes, r5) ← takeBytes 8 r4
  let (flagBytes, _) ← takeBytes 1 r5
  let flag ← readBool (flagBytes.headD 0)
  pure
    { pool := renderAddress pool
      sender := renderAddress sender
      token_account_0 := renderAddress ta0
      token_account_1 := renderAddress ta1
      amount := leToNat amountBytes
      zero_for_one := flag }

/-- Modelled from the spec (Event Decoders): the liquidity-change decoder
consumes one 32-byte pool address and two little-endian u64 amounts;
trailing bytes are ignored. -/
def decodeIncreaseLiquidity (remainder : List Nat) :
    Except DecodeError IncreaseLiquidityEvent := do
  let (pool, r1) ← takeBytes 32 remainder
  let (a0, r2) ← takeBytes 8 r1
  let (a1, _) ← takeBytes 8 r2
  pure
    { pool := renderAddress pool
      amount_0 := leToNat a0
      amount_1 := leToNat a1 }

/-- Modelled from the spec (Orchestrator policy): attempt to decode one
candidate payload; per-candidate decode failures and unknown
discriminators are skipped, yielding `none`. -/
def decodeOne (payload : List Nat) : Option RaydiumCLMMEvent :=
  match classify payload with
  | .error _ => none
  | .ok (.swap, remainder) =>
    match decodeSwap remainder with
    | .ok e => some (.swap e)
    | .error _ => none
  | .ok (.increaseLiquidity, remainder) =>
    match decodeIncreaseLiquidity remainder with
    | .ok e => some (.increaseLiquidity e)
    | .error _ => none
  | .ok (.unknown, _) => none

/-- Modelled from the spec (Candidate Scanner): walk the records of one
qualifying inner-call group at ascending positions.  Each record's
`programIndex` is resolved and its `accountIndices` validated (structural
errors propagate); a record is a candidate exactly when its program
resolves to the target address itself (the self-invocation convention). -/
def scanCalls (accountKeys : List String) (target : String)
    (outerIdx : Nat) : Nat → List CallRecord →
    Except MetadataError (List RawCandidate)
  | _, [] => .ok []
  | pos, c :: rest =>
    match resolve accountKeys c.programIndex with
    | .error e => .error e
    | .ok prog =>
      match validateIndices accountKeys c.accountIndices with
      | .error e => .error e
      | .ok _ =>
        match scanCalls accountKeys target outerIdx (pos + 1) rest with
        | .error e => .error e
        | .ok tail =>
          if prog = target then
            .ok (⟨(outerIdx, pos), c.data⟩ :: tail)
          else .ok tail

/-- Modelled from the spec (Candidate Scanner): walk the inner-call groups
in order.  For each group the outer instruction's program is resolved via
the top-level instruction list and the account-key table; only groups
whose outer instruction invoked the target program are considered, and
their candidates are emitted in execution order. -/
def scanGroups (meta : TransactionMetadata) (target : String) :
    List InnerCallGroup → Except MetadataError (List RawCandidate)
  | [] => .ok []
  | g :: rest =>
    match meta.instructions[g.outerIndex]? with
    | none => .error .indexOutOfRange
    | some ix =>
      match resolve meta.accountKeys ix.programIndex with
      | .error e => .error e
      | .ok outerProg =>
        match
          (if outerProg = target then
            scanCalls meta.accountKeys target g.outerIndex 0 g.calls
          else .ok []) with
        | .error e => .error e
        | .ok cs =>
          match scanGroups meta target rest with
          | .error e => .error e
          | .ok tail => .ok (cs ++ tail)

/-- Modelled from the spec: the scanner over one transaction's metadata. -/
def scan (target : String) (meta : TransactionMetadata) :
    Except MetadataError (List RawCandidate) :=
  scanGroups meta target meta.innerCalls

/-- Modelled from the spec (Orchestrator): fold over the candidates in
execution order, pushing each successfully decoded event and skipping
per-candidate failures. -/
def decodeAll (cs : List RawCandidate) : List RaydiumCLMMEvent :=
  cs.foldl
    (fun acc c =>
      match decodeOne c.payload with
      | some e => acc ++ [e]
      | none => acc)
    []

/-- Modelled from the spec (Orchestrator, `raydium::parse` absent from the
source tree): `parse_raydium_anchor_events` composes resolver, scanner,
dispatcher and decoders over one transaction's metadata.  A target address
absent from `accountKeys` is the degenerate unrelated-transaction case and
yields an empty result; structural errors abort the whole call; the output
preserves the scanner's execution order. -/
def parse_raydium_anchor_events (target : String)
    (meta : TransactionMetadata) :
    Except MetadataError (List RaydiumCLMMEvent) :=
  if meta.accountKeys.contains target then
    match scan target meta with
    | .error e => .error e
    | .ok cs => .ok (decodeAll cs)
  else .ok []

/-! ## Drivers (`src/bin/swap_stream.rs`, `src/bin/swap_stream_count.rs`) -/

/-- The hard-coded target program constant shared by both drivers
(`RAYDIUM_CLMM_PROGRAM` in both binaries). -/
def RAYDIUM_CLMM_PROGRAM : String :=
  "CAMMCzo5YL8w4VFF8KVHrK22GGUsp5VTaW7grrKgrWqK"

/-- Rendering of an address field under the debug format used by both
drivers.  The concrete address type lives in the core module absent from
the source tree; its rendering is modelled as the address string itself. -/
def fmtDebug (a : String) : String := a

/-- The line printed by the `swap_stream` driver for the swap event at the
head of the event sequence (`swap_stream.rs`, the two branches on
`zero_for_one`). -/
def swap_stream_line (e : SwapEvent) (signature : String) : String :=
  if e.zero_for_one then
    fmtDebug e.token_account_0 ++ " -> " ++ fmtDebug e.token_account_1
      ++ " -- sig: " ++ signature
  else
    fmtDebug e.token_account_0 ++ " <- " ++ fmtDebug e.token_account_1
      ++ " -- sig: " ++ signature

/-- The `swap_stream` driver's handling of one decoded event sequence: it
prints exactly when index 0 of the sequence holds a swap event
(`if let Some(RaydiumCLMMEvent::Swap(swap_event)) = event.get(0)`);
the result is the printed line, if any. -/
def swap_stream_handle (events : List RaydiumCLMMEvent)
    (signature : String) : Option String :=
  match events.get? 0 with
  | some (.swap e) => some (swap_stream_line e signature)
  | _ => none

/-- The pair key built by the `swap_stream_count` driver
(`format!("{:?} -> {:?}", ...)` over the two token accounts). -/
def swap_stream_count_pair (e : SwapEvent) : String :=
  fmtDebug e.token_account_0 ++ " -> " ++ fmtDebug e.token_account_1

/-- The map update performed by
`pair_occurances.entry(pair).and_modify(|e| ...).or_insert(1)` in
`swap_stream_count.rs`; the hash map is modelled as an association
list. -/
def tallyInsert (m : List (String × Nat)) (k : String) :
    List (String × Nat) :=
  match m with
  | [] => [(k, 1)]
  | (k0, v) :: rest =>
    if k0 = k then (k0, v + 1) :: rest else (k0, v) :: tallyInsert rest k

/-- The event-sequence part of `handle_transaction` in
`swap_stream_count.rs`: the tally is updated exactly when index 0 of the
event sequence holds a swap event; on a parse error the map is left
unchanged (the driver only logs). -/
def handle_transaction
    (parsed : Except MetadataError (List RaydiumCLMMEvent))
    (pair_occurances : List (String × Nat)) : List (String × Nat) :=
  match parsed with
  | .ok events =>
    match events.get? 0 with
    | some (.swap e) => tallyInsert pair_occurances (swap_stream_count_pair e)
    | _ => pair_occurances
  | .error _ => pair_occurances

/-- The directional pair the spec requires a driver to render for a swap
event: keyed by `zero_for_one`, the arrow points right when the flag is
true and left when it is false.  This definition follows the spec's words
and is compared against the drivers' actual output. -/
def spec_directional_pair (e : SwapEvent) : String :=
  if e.zero_for_one then
    fmtDebug e.token_account_0 ++ " -> " ++ fmtDebug e.token_account_1
  else
    fmtDebug e.token_account_0 ++ " <- " ++ fmtDebug e.token_account_1

/-- An argument of a driver's call to the core decode entry point: either
a program address or the transaction metadata. -/
inductive DecoderCallArg where
  | programAddress (a : String)
  | transactionMeta
deriving DecidableEq, Repr

/-- The argument list of the decoder call in `swap_stream.rs`:
`parse_raydium_anchor_events(transaction.meta())` — the metadata only. -/
def swap_stream_call_args : List DecoderCallArg := [.transactionMeta]

/-- The argument list of the decoder call in `swap_stream_count.rs`:
`parse_raydium_anchor_events(&RAYDIUM_CLMM_PROGRAM, transaction.meta().clone())`. -/
def swap_stream_count_call_args : List DecoderCallArg :=
  [.programAddress RAYDIUM_CLMM_PROGRAM, .transactionMeta]

/-- Whether a call-site argument list supplies a program address. -/
def passesProgramAddress (args : List DecoderCallArg) : Bool :=
  args.any fun a =>
    match a with
    | .programAddress _ => true
    | .transactionMeta => false

/-! ## Transport request building (`src/chainstream/methods.rs`) -/

/-- The `Network` enum of `methods.rs`. -/
inductive Network where
  | solanaMainnet
  | solanaTestnet
deriving DecidableEq, Repr

/-- `Network::as_str`. -/
def Network.as_str : Network → String
  | .solanaMainnet => "solana-mainnet"
  | .solanaTestnet => "solana-testnet"

/-- The `PubKeySelector` struct of `methods.rs`: three optional account
key lists. -/
structure PubKeySelector where
  exclude : Option (List String)
  all : Option (List String)
  one_of : Option (List String)
deriving DecidableEq, Repr

/-- The derived `Default` of `PubKeySelector`: all selectors unset. -/
instance : Inhabited PubKeySelector := ⟨⟨none, none, none⟩⟩

/-- The `TransactionFilter` struct of `methods.rs`. -/
structure TransactionFilter where
  exclude_votes : Option Bool
  account_keys : Option PubKeySelector
deriving DecidableEq, Repr

/-- The `TransactionMethodBuilder` struct of `methods.rs`. -/
structure TransactionMethodBuilder where
  network : Network
  verified : Bool
  filter : TransactionFilter
deriving DecidableEq, Repr

/-- The `Default` impl of `TransactionMethodBuilder`: mainnet, unverified,
empty filter. -/
instance : Inhabited TransactionMethodBuilder :=
  ⟨⟨.solanaMainnet, false, ⟨none, none⟩⟩⟩

/-- `TransactionMethodBuilder::exclude_votes`: sets the vote-exclusion
flag inside the filter, keeping the rest of the builder. -/
def TransactionMethodBuilder.exclude_votes
    (self : TransactionMethodBuilder) (v : Bool) :
    TransactionMethodBuilder :=
  { self with filter := { self.filter with exclude_votes := some v } }

/-- `TransactionMethodBuilder::all_account_keys`: replaces the `all`
selector, defaulting the selector struct when unset and keeping its other
fields (`..self.filter.account_keys.unwrap_or_default()`). -/
def TransactionMethodBuilder.all_account_keys
    (self : TransactionMethodBuilder) (account_keys : List String) :
    TransactionMethodBuilder :=
  { self with
    filter :=
      { self.filter with
        account_keys :=
          some { self.filter.account_keys.getD default with
                 all := some account_keys } } }

/-- `TransactionMethodBuilder::one_of_account_keys`: replaces the
`one_of` selector, defaulting the selector struct when unset and keeping
its other fields. -/
def TransactionMethodBuilder.one_of_account_keys
    (self : TransactionMethodBuilder) (account_keys : List String) :
    TransactionMethodBuilder :=
  { self with
    filter :=
      { self.filter with
        account_keys :=
          some { self.filter.account_keys.getD default with
                 one_of := some account_keys } } }

/-- `TransactionMethodBuilder::exclude_account_keys`: replaces the
`exclude` selector, defaulting the selector struct when unset and keeping
its other fields. -/
def TransactionMethodBuilder.exclude_account_keys
    (self : TransactionMethodBuilder) (account_keys : List String) :
    TransactionMethodBuilder :=
  { self with
    filter :=
      { self.filter with
        account_keys :=
          some { self.filter.account_keys.getD default with
                 exclude := some account_keys } } }

/-- A JSON value, for the serialized request parameters. -/
inductive JsonValue where
  | null
  | bool (b : Bool)
  | str (s : String)
  | arr (xs : List JsonValue)
  | obj (fields : List (String × JsonValue))

/-- Serialization of a string list. -/
def serializeStringList (xs : List String) : JsonValue :=
  .arr (xs.map .str)

/-- The derived serialization of `PubKeySelector` (camelCase field names,
`None` fields skipped).  Serializing optional string lists cannot fail, so
the function is total. -/
def PubKeySelector.to_value (s : PubKeySelector) : JsonValue :=
  .obj
    ((match s.exclude with
      | some v => [("exclude", serializeStringList v)]
      | none => [])
    ++ (match s.all with
      | some v => [("all", serializeStringList v)]
      | none => [])
    ++ (match s.one_of with
      | some v => [("oneOf", serializeStringList v)]
      | none => []))

/-- The derived serialization of `TransactionFilter` (camelCase field
names, `None` fields skipped); total, mirroring that
`serde_json::to_value` on this concrete type cannot fail. -/
def TransactionFilter.to_value (f : TransactionFilter) : JsonValue :=
  .obj
    ((match f.exclude_votes with
      | some v => [("excludeVotes", .bool v)]
      | none => [])
    ++ (match f.account_keys with
      | some s => [("accountKeys", s.to_value)]
      | none => []))

/-- The `RpcError` enum of `methods.rs`. -/
inductive RpcError where
  | unsupportedMethod
  | paramsError (msg : String)

/-- The parameter object being built (`jsonrpsee` `ObjectParams`),
modelled as its entry list. -/
structure ObjectParams where
  entries : List (String × JsonValue)

/-- `ObjectParams::new`. -/
def ObjectParams.new : ObjectParams := ⟨[]⟩

/-- `ObjectParams::insert`: appends a named entry.  The library version
fails only if serializing the value fails; here the values are already
serialized `JsonValue`s, whose rendering is total, so the result is
always `ok` — the error type is kept to mirror the source signature. -/
def ObjectParams.insert (p : ObjectParams) (name : String)
    (v : JsonValue) : Except String ObjectParams :=
  .ok ⟨p.entries ++ [(name, v)]⟩

/-- `TransactionMethodBuilder::build_params`: inserts `network`,
`verified` and the serialized `filter`, mapping any insertion failure to
`RpcError::ParamsError`. -/
def TransactionMethodBuilder.build_params
    (self : TransactionMethodBuilder) : Except RpcError ObjectParams :=
  match ObjectParams.new.insert "network" (.str self.network.as_str) with
  | .error e => .error (.paramsError e)
  | .ok p1 =>
    match p1.insert "verified" (.bool self.verified) with
    | .error e => .error (.paramsError e)
    | .ok p2 =>
      match p2.insert "filter" self.filter.to_value with
      | .error e => .error (.paramsError e)
      | .ok p3 => .ok p3

/-! ## Concrete transaction metadata values used as test vectors -/

/-- A transaction whose account keys do not mention the target program. -/
def c3meta : TransactionMetadata := ⟨"sig-c3", ["A"], [], [], []⟩

/-- A transaction whose account keys contain the target, with an inner
call record carrying an out-of-range program index inside a group whose
outer instruction invoked a different program. -/
def cex4meta : TransactionMetadata :=
  ⟨"sig-c4", ["T", "A"], [], [⟨1⟩], [⟨0, [⟨5, [], []⟩]⟩]⟩

/-- A transaction with a qualifying group containing a record whose
program index is out of range for the account-key table. -/
def c4wmeta : TransactionMetadata :=
  ⟨"sig-c4w", ["T"], [], [⟨0⟩], [⟨0, [⟨3, [], []⟩]⟩]⟩

/-- A transaction with one self-invocation candidate whose payload is
3 bytes long, shorter than the discriminator width. -/
def c5meta : TransactionMetadata :=
  ⟨"sig-c5", ["T"], [], [⟨0⟩], [⟨0, [⟨0, [1, 2, 3], []⟩]⟩]⟩

/-- A transaction with one self-invocation candidate with a 2-byte
payload. -/
def c6meta : TransactionMetadata :=
  ⟨"sig-c6", ["T"], [], [⟨0⟩], [⟨0, [⟨0, [9, 9], []⟩]⟩]⟩

/-- A swap event whose direction flag is false. -/
def c2event : SwapEvent := ⟨"pool", "sender", "A", "B", 1000, false⟩

/-! ## Helper lemmas -/

theorem resolve_eq_ok (keys : List String) (i : Nat) (a : String) :
    resolve keys i = .ok a ↔ keys[i]? = some a := by
  unfold resolve
  cases h : keys[i]? <;> simp

theorem resolve_eq_error_of_none (keys : List String) (i : Nat)
    (h : keys[i]? = none) : resolve keys i = .error .indexOutOfRange := by
  unfold resolve
  rw [h]

theorem mem_of_resolve_ok (keys : List String) (i : Nat) (a : String)
    (h : resolve keys i = .ok a) : a ∈ keys :=
  List.get?_mem
    ((List.get?_eq_getElem? keys i).symm ▸ (resolve_eq_ok keys i a).mp h)

theorem validateIndices_eq_error (keys : List String) (is : List Nat)
    (h : ∃ i, i ∈ is ∧ keys[i]? = none) :
    validateIndices keys is = .error .indexOutOfRange := by
  induction is with
  | nil =>
    rcases h with ⟨i, hi, _⟩
    cases hi
  | cons j rest ih =>
    rcases h with ⟨i, hi, hnone⟩
    unfold validateIndices
    cases hres : resolve keys j with
    | error e => cases e; rfl
    | ok a =>
      rcases List.mem_cons.mp hi with hij | hirest
      · subst hij
        rw [(resolve_eq_ok keys i a).mp hres] at hnone
        cases hnone
      · exact ih ⟨i, hirest, hnone⟩

theorem classify_eq_truncated (p : List Nat) (h : p.length < 8) :
    classify p = .error .truncated := by
  simp [classify, DISCRIMINATOR_WIDTH, h]

theorem decodeOne_eq_none_of_classify_error (p : List Nat) (d : DecodeError)
    (h : classify p = .error d) : decodeOne p = none := by
  simp [decodeOne, h]

theorem foldl_decode_step (cs : List RawCandidate) :
    ∀ acc : List RaydiumCLMMEvent,
      cs.foldl
        (fun acc c =>
          match decodeOne c.payload with
          | some e => acc ++ [e]
          | none => acc)
        acc
      = acc ++ cs.filterMap (fun c => decodeOne c.payload) := by
  induction cs with
  | nil => intro acc; simp
  | cons c rest ih =>
    intro acc
    cases h : decodeOne c.payload with
    | none => simp [List.foldl_cons, h, ih, List.filterMap_cons]
    | some e => simp [List.foldl_cons, h, ih, List.filterMap_cons]

theorem decodeAll_eq_filterMap (cs : List RawCandidate) :
    decodeAll cs = cs.filterMap (fun c => decodeOne c.payload) := by
  simpa [decodeAll] using foldl_decode_step cs []

theorem target_mem_of_scanCalls_ok (keys : List String) (target : String)
    (o : Nat) (calls : List CallRecord) :
    ∀ (pos : Nat) (cs : List RawCandidate) (c : RawCandidate),
      scanCalls keys target o pos calls = .ok cs → c ∈ cs →
      target ∈ keys := by
  induction calls with
  | nil =>
    intro pos cs c h hc
    simp only [scanCalls] at h
    obtain rfl : ([] : List RawCandidate) = cs := by simpa using h
    cases hc
  | cons r rest ih =>
    intro pos cs c h hc
    simp only [scanCalls] at h
    cases hres : resolve keys r.programIndex with
    | error e => simp [hres] at h
    | ok prog =>
      simp only [hres] at h
      cases hval : validateIndices keys r.accountIndices with
      | error e => simp [hval] at h
      | ok u =>
        simp only [hval] at h
        cases hrest : scanCalls keys target o (pos + 1) rest with
        | error e => simp [hrest] at h
        | ok tail =>
          simp only [hrest] at h
          by_cases hp : prog = target
          · exact hp ▸ mem_of_resolve_ok keys r.programIndex prog hres
          · rw [if_neg hp] at h
            obtain rfl : tail = cs := by simpa using h
            exact ih (pos + 1) tail c hrest hc

theorem target_mem_of_scanGroups_ok (meta : TransactionMetadata)
    (target : String) (gs : List InnerCallGroup) :
    ∀ (cs : List RawCandidate) (c : RawCandidate),
      scanGroups meta target gs = .ok cs → c ∈ cs →
      target ∈ meta.accountKeys := by
  induction gs with
  | nil =>
    intro cs c h hc
    simp only [scanGroups] at h
    obtain rfl : ([] : List RawCandidate) = cs := by simpa using h
    cases hc
  | cons g rest ih =>
    intro cs c h hc
    simp only [scanGroups] at h
    cases hix : meta.instructions[g.outerIndex]? with
    | none => simp [hix] at h
    | some ix =>
      simp only [hix] at h
      cases hres : resolve meta.accountKeys ix.programIndex with
      | error e => simp [hres] at h
      | ok outerProg =>
        simp only [hres] at h
        by_cases hp : outerProg = target
        · exact hp ▸ mem_of_resolve_ok meta.accountKeys ix.programIndex
            outerProg hres
        · cases hrest : scanGroups meta target rest with
          | error e => simp [hp, hrest] at h
          | ok tail =>
            simp only [hp, if_neg, hrest] at h
            obtain rfl : tail = cs := by simpa using h
            exact ih tail c hrest hc

theorem target_mem_of_scan_ok (target : String) (meta : TransactionMetadata)
    (cs : List RawCandidate) (c : RawCandidate)
    (h : scan target meta = .ok cs) (hc : c ∈ cs) :
    target ∈ meta.accountKeys :=
  target_mem_of_scanGroups_ok meta target meta.innerCalls cs c h hc

theorem scanCalls_eq_error (keys : List String) (target : String) (o : Nat)
    (rec : CallRecord)
    (hbad : keys[rec.programIndex]? = none ∨
      ∃ i, i ∈ rec.accountIndices ∧ keys[i]? = none) :
    ∀ calls : List CallRecord, rec ∈ calls → ∀ pos : Nat,
      scanCalls keys target o pos calls = .error .indexOutOfRange := by
  intro calls
  induction calls with
  | nil => intro hrec; cases hrec
  | cons r rest ih =>
    intro hrec pos
    rcases List.mem_cons.mp hrec with hr | hr
    · subst hr
      rcases hbad with hnone | hidx
      · simp only [scanCalls]
        rw [resolve_eq_error_of_none keys rec.programIndex hnone]
      · simp only [scanCalls]
        cases hres : resolve keys rec.programIndex with
        | error e => cases e; rfl
        | ok prog =>
          rw [validateIndices_eq_error keys rec.accountIndices hidx]
    · simp only [scanCalls]
      cases hres : resolve keys r.programIndex with
      | error e => cases e; rfl
      | ok prog =>
        cases hval : validateIndices keys r.accountIndices with
        | error e => cases e; rfl
        | ok u =>
          rw [ih hr (pos + 1)]

theorem scanGroups_eq_error (meta : TransactionMetadata) (target : String)
    (g : InnerCallGroup) (ix : OuterInstruction) (rec : CallRecord)
    (hix : meta.instructions[g.outerIndex]? = some ix)
    (houter : resolve meta.accountKeys ix.programIndex = .ok target)
    (hrec : rec ∈ g.calls)
    (hbad : meta.accountKeys[rec.programIndex]? = none ∨
      ∃ i, i ∈ rec.accountIndices ∧ meta.accountKeys[i]? = none) :
    ∀ gs : List InnerCallGroup, g ∈ gs →
      scanGroups meta target gs = .error .indexOutOfRange := by
  intro gs
  induction gs with
  | nil => intro hg; cases hg
  | cons g0 rest ih =>
    intro hg
    rcases List.mem_cons.mp hg with h0 | h0
    · subst h0
      simp only [scanGroups, hix, houter, if_true]
      rw [scanCalls_eq_error meta.accountKeys target g.outerIndex rec hbad
        g.calls hrec 0]
    · simp only [scanGroups]
      split
      · rfl
      · split
        · next e _ => cases e; rfl
        · split
          · next e _ => cases e; rfl
          · rw [ih h0]

/-! ## Claim theorems -/

/-- C3: for every transaction metadata value whose `accountKeys` table
does not contain the target program address,
`parse_raydium_anchor_events` returns `Ok` with an empty event sequence;
absence of the target program is never reported as an error. -/
theorem c3_unrelated_transaction_ok_empty (target : String)
    (meta : TransactionMetadata) (h : target ∉ meta.accountKeys) :
    parse_raydium_anchor_events target meta = .ok [] := by
  simp [parse_raydium_anchor_events, h]

/-- C3 witness: the target is absent from the account keys of `c3meta`
and the parse result is the empty event list. -/
theorem c3_unrelated_transaction_witness :
    ("T" ∉ c3meta.accountKeys) ∧
    parse_raydium_anchor_events "T" c3meta = .ok [] :=
  ⟨by decide, c3_unrelated_transaction_ok_empty "T" c3meta (by decide)⟩

/-- C7: the core decode path is a total function: for every target address
and every transaction metadata value, including ones with arbitrary
malformed payload bytes, the result is either `Ok(events)` or
`Err(MetadataError.indexOutOfRange)` — there is no other outcome. -/
theorem c7_total_no_panic (target : String) (meta : TransactionMetadata) :
    (∃ events, parse_raydium_anchor_events target meta = .ok events) ∨
    parse_raydium_anchor_events target meta =
      .error .indexOutOfRange := by
  cases h : parse_raydium_anchor_events target meta with
  | ok events => exact Or.inl ⟨events, rfl⟩
  | error e => cases e; exact Or.inr rfl

/-- C5: for every candidate payload shorter than 8 bytes, the dispatcher
yields `DecodeError.truncated`, and the overall result is `Ok`, equal to
the result produced with that candidate removed from the candidate
sequence: the truncated candidate is skipped without affecting any other
candidate. -/
theorem c5_truncated_candidate_skipped (target : String)
    (meta : TransactionMetadata) (xs ys : List RawCandidate)
    (p : RawCandidate)
    (hscan : scan target meta = .ok (xs ++ p :: ys))
    (hlen : p.payload.length < 8) :
    classify p.payload = .error .truncated ∧
    parse_raydium_anchor_events target meta =
      .ok (decodeAll (xs ++ ys)) := by
  have hcl : classify p.payload = .error .truncated :=
    classify_eq_truncated p.payload hlen
  refine ⟨hcl, ?_⟩
  have hmem : target ∈ meta.accountKeys :=
    target_mem_of_scan_ok target meta (xs ++ p :: ys) p hscan (by simp)
  have step : parse_raydium_anchor_events target meta =
      .ok (decodeAll (xs ++ p :: ys)) := by
    simp [parse_raydium_anchor_events, hmem, hscan]
  rw [step, decodeAll_eq_filterMap, decodeAll_eq_filterMap,
    List.filterMap_append, List.filterMap_append, List.filterMap_cons,
    decodeOne_eq_none_of_classify_error p.payload .truncated hcl]

/-- C5 witness: a 3-byte candidate payload is classified as truncated and
the transaction parses to the result with the candidate removed. -/
theorem c5_truncated_candidate_witness :
    classify [1, 2, 3] = .error .truncated ∧
    parse_raydium_anchor_events "T" c5meta = .ok (decodeAll []) :=
  c5_truncated_candidate_skipped "T" c5meta [] [] ⟨(0, 0), [1, 2, 3]⟩
    rfl (by decide)

/-- C6: whenever the scanner produces the candidate sequence `cs` (in
execution order) and the orchestrator returns `Ok events`, `events` is
exactly the in-order sequence of successfully decoded candidates of
`cs`: the output preserves the scanner's execution order. -/
theorem c6_order_preservation (target : String)
    (meta : TransactionMetadata) (cs : List RawCandidate)
    (events : List RaydiumCLMMEvent)
    (hscan : scan target meta = .ok cs)
    (hparse : parse_raydium_anchor_events target meta = .ok events) :
    events = cs.filterMap (fun c => decodeOne c.payload) := by
  by_cases hmem : target ∈ meta.accountKeys
  · have hde : decodeAll cs = events := by
      simpa [parse_raydium_anchor_events, hmem, hscan] using hparse
    rw [← hde, decodeAll_eq_filterMap]
  · cases cs with
    | nil =>
      simp only [List.filterMap_nil]
      simp [parse_raydium_anchor_events, hmem] at hparse
      exact hparse
    | cons c rest =>
      exact absurd
        (target_mem_of_scan_ok target meta (c :: rest) c hscan
          (List.mem_cons_self c rest))
        hmem

/-- C6 witness: a transaction with one candidate that fails to decode
yields the empty output, the in-order filter-map of the candidate list. -/
theorem c6_order_preservation_witness :
    ([] : List RaydiumCLMMEvent) =
      List.filterMap (fun c : RawCandidate => decodeOne c.payload)
        [⟨(0, 0), [9, 9]⟩] :=
  c6_order_preservation "T" c6meta [⟨(0, 0), [9, 9]⟩] [] rfl rfl

/-- C4 counterexample: the claim quantifies over every transaction
containing a record with an out-of-range `programIndex`, but a record in
a group whose outer instruction did not invoke the target program is
never resolved: `cex4meta` contains such a record (program index 5,
account-key table of length 2) yet the parse returns `Ok []`, not
`Err(IndexOutOfRange)`. -/
theorem c4_counterexample :
    (∃ g, g ∈ cex4meta.innerCalls ∧ ∃ r, r ∈ g.calls ∧
      cex4meta.accountKeys[r.programIndex]? = none) ∧
    parse_raydium_anchor_events "T" cex4meta = .ok [] := by
  constructor
  · refine ⟨⟨0, [⟨5, [], []⟩]⟩, ?_, ⟨5, [], []⟩, ?_, ?_⟩
    · decide
    · decide
    · rfl
  · rfl

/-- C4 (amended): when an inner call record lies in a group whose outer
instruction invoked the target program, an out-of-range `programIndex`
(or any out-of-range entry of `accountIndices`) of that record makes
`parse_raydium_anchor_events` return
`Err(MetadataError.indexOutOfRange)`, aborting the whole call. -/
theorem c4_structural_error_aborts (target : String)
    (meta : TransactionMetadata) (g : InnerCallGroup)
    (ix : OuterInstruction) (rec : CallRecord)
    (hg : g ∈ meta.innerCalls)
    (hix : meta.instructions[g.outerIndex]? = some ix)
    (houter : resolve meta.accountKeys ix.programIndex = .ok target)
    (hrec : rec ∈ g.calls)
    (hbad : meta.accountKeys[rec.programIndex]? = none ∨
      ∃ i, i ∈ rec.accountIndices ∧ meta.accountKeys[i]? = none) :
    parse_raydium_anchor_events target meta =
      .error .indexOutOfRange := by
  have hmem : target ∈ meta.accountKeys :=
    mem_of_resolve_ok meta.accountKeys ix.programIndex target houter
  have hscan : scanGroups meta target meta.innerCalls =
      .error .indexOutOfRange :=
    scanGroups_eq_error meta target g ix rec hix houter hrec hbad
      meta.innerCalls hg
  simp [parse_raydium_anchor_events, scan, hmem, hscan]

/-- C4 witness: a qualifying group with a record whose program index 3 is
out of range for the singleton account-key table aborts the parse. -/
theorem c4_structural_error_witness :
    parse_raydium_anchor_events "T" c4wmeta = .error .indexOutOfRange :=
  c4_structural_error_aborts "T" c4wmeta ⟨0, [⟨3, [], []⟩]⟩ ⟨0⟩
    ⟨3, [], []⟩ (by decide) rfl rfl (by decide) (Or.inl rfl)

/-- C1: the claim states that every driver call site passes the program
address as an argument to the core decode entry point.  The
`swap_stream_count` driver does, but the `swap_stream` driver calls the
decoder with the transaction metadata as its only argument: no program
address appears in that call's argument list. -/
theorem c1_driver_call_sites :
    passesProgramAddress swap_stream_count_call_args = true ∧
    passesProgramAddress swap_stream_call_args = false :=
  ⟨rfl, rfl⟩

/-- C2 counterexample: on a swap event whose `zero_for_one` flag is false,
the `swap_stream_count` driver renders its tally key with the right arrow
rather than the direction-keyed pair the claim requires, and tags no
signature: its key differs from the spec's directional pair. -/
theorem c2_directional_pair_counterexample :
    swap_stream_count_pair c2event ≠ spec_directional_pair c2event ∧
    handle_transaction (.ok [.swap c2event]) [] = [("A -> B", 1)] := by
  constructor
  · decide
  · rfl

/-- C2 (amended): the `swap_stream` driver renders the directional pair
keyed by `zero_for_one` and tags it with the transaction signature, as
the claim states; the `swap_stream_count` driver instead always renders
`token_account_0 -> token_account_1` regardless of the flag and carries
no signature in its tally key. -/
theorem c2_directional_pair_amended (e : SwapEvent) (signature : String) :
    swap_stream_line e signature =
      spec_directional_pair e ++ " -- sig: " ++ signature ∧
    swap_stream_count_pair e =
      fmtDebug e.token_account_0 ++ " -> " ++ fmtDebug e.token_account_1 := by
  refine ⟨?_, rfl⟩
  cases hz : e.zero_for_one <;>
    simp [swap_stream_line, spec_directional_pair, hz]

/-- C8: both drivers inspect only index 0 of the decoded event sequence:
their behavior is unchanged when the sequence is cut after its first
element; when index 0 is not a swap event nothing is printed and the
tally is unchanged (so a swap at any later position is never printed or
tallied); and when index 0 is a swap event, the printed line and the
tally key are those of that event alone. -/
theorem c8_drivers_head_only (events : List RaydiumCLMMEvent)
    (signature : String) (m : List (String × Nat)) :
    swap_stream_handle events signature =
      swap_stream_handle (events.take 1) signature ∧
    handle_transaction (.ok events) m =
      handle_transaction (.ok (events.take 1)) m ∧
    ((∀ e, events.get? 0 ≠ some (.swap e)) →
      swap_stream_handle events signature = none ∧
      handle_transaction (.ok events) m = m) ∧
    (∀ e, events.get? 0 = some (.swap e) →
      swap_stream_handle events signature =
        some (swap_stream_line e signature) ∧
      handle_transaction (.ok events) m =
        tallyInsert m (swap_stream_count_pair e)) := by
  cases events with
  | nil =>
    exact ⟨rfl, rfl, fun _ => ⟨rfl, rfl⟩, fun e he => by cases he⟩
  | cons e0 rest =>
    cases e0 with
    | swap s =>
      refine ⟨rfl, rfl, fun h => absurd rfl (h s), fun e he => ?_⟩
      obtain rfl : s = e := by simpa using he
      exact ⟨rfl, rfl⟩
    | increaseLiquidity l =>
      refine ⟨rfl, rfl, fun _ => ⟨rfl, rfl⟩, fun e he => ?_⟩
      simp [swap_stream_handle] at he

/-- C8 witness: a sequence whose head is not a swap event produces no
printed line and leaves the tally untouched. -/
theorem c8_drivers_head_only_witness :
    swap_stream_handle [RaydiumCLMMEvent.increaseLiquidity ⟨"p", 0, 0⟩]
      "s" = none ∧
    handle_transaction
      (.ok [RaydiumCLMMEvent.increaseLiquidity ⟨"p", 0, 0⟩]) [] = [] :=
  (c8_drivers_head_only [RaydiumCLMMEvent.increaseLiquidity ⟨"p", 0, 0⟩]
    "s" []).2.2.1 (fun e he => by simp at he)

/-- C9: each account-key setter of the transaction subscription builder
modifies only its own selector field: `one_of_account_keys` leaves the
network, the verified flag, the vote-exclusion filter and the previously
set `all` and `exclude` selector lists unchanged and sets only the
`one_of` list — and symmetrically for `all_account_keys` and
`exclude_account_keys`. -/
theorem c9_account_key_setters_frame (b : TransactionMethodBuilder)
    (ks : List String) :
    ((b.one_of_account_keys ks).network = b.network ∧
      (b.one_of_account_keys ks).verified = b.verified ∧
      (b.one_of_account_keys ks).filter.exclude_votes =
        b.filter.exclude_votes ∧
      ((b.one_of_account_keys ks).filter.account_keys.getD
        default).exclude = (b.filter.account_keys.getD default).exclude ∧
      ((b.one_of_account_keys ks).filter.account_keys.getD
        default).all = (b.filter.account_keys.getD default).all ∧
      ((b.one_of_account_keys ks).filter.account_keys.getD
        default).one_of = some ks) ∧
    ((b.all_account_keys ks).network = b.network ∧
      (b.all_account_keys ks).verified = b.verified ∧
      (b.all_account_keys ks).filter.exclude_votes =
        b.filter.exclude_votes ∧
      ((b.all_account_keys ks).filter.account_keys.getD
        default).exclude = (b.filter.account_keys.getD default).exclude ∧
      ((b.all_account_keys ks).filter.account_keys.getD
        default).one_of = (b.filter.account_keys.getD default).one_of ∧
      ((b.all_account_keys ks).filter.account_keys.getD
        default).all = some ks) ∧
    ((b.exclude_account_keys ks).network = b.network ∧
      (b.exclude_account_keys ks).verified = b.verified ∧
      (b.exclude_account_keys ks).filter.exclude_votes =
        b.filter.exclude_votes ∧
      ((b.exclude_account_keys ks).filter.account_keys.getD
        default).all = (b.filter.account_keys.getD default).all ∧
      ((b.exclude_account_keys ks).filter.account_keys.getD
        default).one_of = (b.filter.account_keys.getD default).one_of ∧
      ((b.exclude_account_keys ks).filter.account_keys.getD
        default).exclude = some ks) :=
  ⟨⟨rfl, rfl, rfl, rfl, rfl, rfl⟩, ⟨rfl, rfl, rfl, rfl, rfl, rfl⟩,
    ⟨rfl, rfl, rfl, rfl, rfl, rfl⟩⟩

/-- C10: building the subscription parameters is total: for every
transaction method builder, `build_params` returns `Ok` — the error
branches are unreachable because serializing the filter and inserting the
three entries cannot fail. -/
theorem c10_build_params_total (b : TransactionMethodBuilder) :
    ∃ p, b.build_params = .ok p :=
  ⟨_, rfl⟩

end ChainstreamRaydium
